import Mathlib

/-!
# Verification of the Zotero FastAPI proxy (`src/main.py`)

A shallow embedding of the pure / state-passing core of `main.py`:

* the bounded TTL + LRU cache `_Cache`,
* the free-text relevance scorer `_score_match_free` and its helpers
  (`_creator_string`, `_year`, `_tags`, `_compact_item`, ...),
* the paginated scan / filter / sort logic of the `/search` endpoint
  (`faceted_search`),
* the PDF text extraction `_pdf_to_text_by_pages` and in-PDF phrase
  search `_pdf_find_phrase`,
* a spec-modelled mojibake `repair` (the repository contains no such
  function in `src/`, only the spec describes it).

Python strings are modelled as Lean `String`s (operated on through their
`List Char` code-point representation; `str.lower` is modelled on the
ASCII range).  Upstream HTTP I/O (the Zotero API, PyMuPDF page access)
is modelled by explicit parameters: page lists, children/attachment
oracles and `Except` values carrying the HTTP status and detail of the
exceptions the code raises.  Wall-clock time is an explicit `Nat`
argument (seconds).
-/

namespace ZoteroProxy

/-! ## String primitives (models of the Python `str` operations used) -/

/-- Model of `str.lower` restricted to the ASCII range (all concrete
inputs in this development are ASCII). -/
def charLower (c : Char) : Char :=
  if 'A' ≤ c ∧ c ≤ 'Z' then Char.ofNat (c.toNat + 32) else c

/-- Lower-case every character. -/
def strLower (s : String) : String :=
  String.mk (s.data.map charLower)

/-- Python whitespace test for `str.strip` (ASCII whitespace). -/
def isSpaceChar (c : Char) : Bool :=
  c = ' ' ∨ c = '\t' ∨ c = '\n' ∨ c = '\r' ∨ c = '\x0b' ∨ c = '\x0c'

/-- Model of `str.strip()`: drop whitespace from both ends. -/
def strTrim (s : String) : String :=
  String.mk (((s.data.dropWhile isSpaceChar).reverse.dropWhile isSpaceChar).reverse)

/-- `needle.isPrefixOf hay || ...` scan: model of the Python substring
test `needle in hay` on code-point lists. -/
def containsAux (needle : List Char) : List Char → Bool
  | [] => needle.isEmpty
  | c :: t => needle.isPrefixOf (c :: t) || containsAux needle t

/-- Model of the Python membership test `needle in hay` for strings. -/
def containsSub (hay needle : String) : Bool :=
  containsAux needle.data hay.data

/-- Word characters of the regex `\w` (ASCII range, as produced by the
queries this proxy handles). -/
def isWordChar (c : Char) : Bool :=
  ('a' ≤ c ∧ c ≤ 'z') ∨ ('A' ≤ c ∧ c ≤ 'Z') ∨ ('0' ≤ c ∧ c ≤ '9') ∨ c = '_'

/-- Model of `re.split(r"\W+", s)` minus empty pieces (the code keeps
only tokens of length ≥ 3, so dropping empties is behaviour-neutral
there; we drop them to hold the non-empty word runs). -/
def splitWords (s : String) : List String :=
  (s.data.splitOnP (fun c => !isWordChar c)).filterMap
    (fun l => if l.isEmpty then none else some (String.mk l))

/-- Is `c` an ASCII digit? -/
def isDigitChar (c : Char) : Bool := '0' ≤ c ∧ c ≤ '9'

/-- Does a 4-digit year `(19|20)\d{2}` with word boundaries start at the
head of `l`, given the preceding character `prev`? -/
def yearAt (prev : Option Char) : List Char → Option String
  | c1 :: c2 :: c3 :: c4 :: rest =>
    if (prev.all (fun p => !isWordChar p)) &&
       ((c1 = '1' && c2 = '9') || (c1 = '2' && c2 = '0')) &&
       isDigitChar c3 && isDigitChar c4 &&
       (match rest with | [] => true | r :: _ => !isWordChar r) then
      some (String.mk [c1, c2, c3, c4])
    else none
  | _ => none

/-- Scan for the first match of `\b(19|20)\d{2}\b` (model of
`re.search`). -/
def findYearAux (prev : Option Char) : List Char → Option String
  | [] => none
  | c :: t =>
    match yearAt prev (c :: t) with
    | some y => some y
    | none => findYearAux (some c) t

/-- First `\b(19|20)\d{2}\b` match in `s`, if any (used by `_year` and
`_parse_year_from_query`). -/
def findYear (s : String) : Option String :=
  findYearAux none s.data

/-- Model of Python's `x or y` on optional strings: `y` when `x` is
`None` or empty. -/
def pyOr (x y : Option String) : Option String :=
  match x with
  | some s => if s = "" then y else some s
  | none => y

/-- Python truthiness of an optional string. -/
def isTruthy (o : Option String) : Bool :=
  match o with
  | some s => s ≠ ""
  | none => false

/-- First `n` characters of `s` (Python slice `s[:n]`). -/
def strTake (s : String) (n : Nat) : String :=
  String.mk (s.data.take n)

/-- Python slice `s[lo:hi]` (indices already clamped to `≥ 0` by `Nat`;
`take` clamps the upper end). -/
def strSlice (s : String) (lo hi : Nat) : String :=
  String.mk ((s.data.drop lo).take (hi - lo))

/-! ## Item model

A Zotero item as the proxy reads it: the `data` sub-dictionary fields
that `main.py` accesses, each `Option` mirroring `dict.get` returning
`None` when absent. -/

/-- One entry of `data["creators"]` (fields read by `_creator_string`). -/
structure Creator where
  name : Option String := none
  firstName : Option String := none
  lastName : Option String := none
  deriving DecidableEq, Repr

/-- One entry of `data["tags"]` (`t.get("tag")`). -/
structure TagEntry where
  tag : Option String := none
  deriving DecidableEq, Repr

/-- The `data` dictionary of an item, restricted to the fields
`main.py` reads. -/
structure ItemData where
  key : Option String := none
  itemType : Option String := none
  parentItem : Option String := none
  title : Option String := none
  creators : List Creator := []
  date : Option String := none
  tags : List TagEntry := []
  collections : List String := []
  publicationTitle : Option String := none
  bookTitle : Option String := none
  encyclopediaTitle : Option String := none
  deriving DecidableEq, Repr

/-- A top-level JSON item: outer `key` plus the `data` dictionary. -/
structure Item where
  key : Option String := none
  data : ItemData := {}
  deriving DecidableEq, Repr

/-- `_safe_str`: `(x or "").strip()`. -/
def safeStr (x : Option String) : String :=
  strTrim (x.getD "")

/-- `_is_top_level_item`: no `parentItem` and the type is not
attachment/note/annotation. -/
def isTopLevelItem (it : Item) : Bool :=
  it.data.parentItem = none &&
  !(it.data.itemType = some "attachment" ∨ it.data.itemType = some "note" ∨
    it.data.itemType = some "annotation")

/-- `_creator_string`: comma-joined creator names; falls back to
`"{firstName} {lastName}"` stripped when `name` is empty. -/
def creatorString (it : Item) : String :=
  let parts := it.data.creators.filterMap (fun c =>
    let name := safeStr c.name
    let name := if name = "" then safeStr (some (safeStr c.firstName ++ " " ++ safeStr c.lastName))
                else name
    if name = "" then none else some name)
  String.intercalate ", " parts

/-- `_year`: first `\b(19|20)\d{2}\b` in `data["date"]`, else `""`. -/
def yearOf (it : Item) : String :=
  (findYear (it.data.date.getD "")).getD ""

/-- `_tags`: the truthy `tag` fields in order. -/
def tagsOf (it : Item) : List String :=
  it.data.tags.filterMap (fun t =>
    match t.tag with
    | some s => if s = "" then none else some s
    | none => none)

/-- `_collections`: `data.get("collections", [])`. -/
def collectionsOf (it : Item) : List String :=
  it.data.collections

/-- The compact record `_compact_item` builds for a response. -/
structure CompactRecord where
  item_key : Option String
  itemType : Option String
  title : Option String
  creators : String
  year : String
  publicationTitle : Option String
  collections : List String
  tags : List String
  has_pdf : Bool
  pdf_attachment_keys : List String
  note_snippet : String
  match_reason : String
  score : Nat
  deriving DecidableEq, Repr

/-- `_compact_item`. -/
def compactItem (it : Item) (hasPdf : Bool) (pdfKeys : List String)
    (noteSnippet matchReason : String) (score : Nat) : CompactRecord :=
  { item_key := pyOr it.data.key it.key
    itemType := it.data.itemType
    title := it.data.title
    creators := creatorString it
    year := yearOf it
    publicationTitle := pyOr (pyOr it.data.publicationTitle it.data.bookTitle) it.data.encyclopediaTitle
    collections := collectionsOf it
    tags := tagsOf it
    has_pdf := hasPdf
    pdf_attachment_keys := pdfKeys
    note_snippet := noteSnippet
    match_reason := matchReason
    score := score }

/-! ## Free-text relevance scorer `_score_match_free` -/

/-- The lowered haystack fields of an item, in the order the code
binds them: title, creators, publication, tags, year, notes. -/
def lowerTitle (it : Item) : String := strLower (it.data.title.getD "")

/-- Lowered `_creator_string`. -/
def lowerCreators (it : Item) : String := strLower (creatorString it)

/-- Lowered `publicationTitle or bookTitle or encyclopediaTitle or ""`. -/
def lowerPub (it : Item) : String :=
  strLower ((pyOr (pyOr it.data.publicationTitle it.data.bookTitle) it.data.encyclopediaTitle).getD "")

/-- Lowered `" ".join(_tags(item))`. -/
def lowerTags (it : Item) : String := strLower (String.intercalate " " (tagsOf it))

/-- Lowered `_year(item)`. -/
def lowerYear (it : Item) : String := strLower (yearOf it)

/-- The field-substring hits of `_score_match_free` (the six `hit(...)`
calls, in code order) as `(score, reason-labels)`. -/
def fieldHits (qn : String) (it : Item) (noteText : String) : Nat × List String :=
  let fields : List (String × Nat × String) :=
    [(lowerTitle it, 14, "title"), (lowerCreators it, 9, "creators"),
     (lowerTags it, 7, "tags"), (lowerPub it, 5, "publication"),
     (strLower noteText, 4, "notes"), (lowerYear it, 3, "year")]
  fields.foldl (fun (acc : Nat × List String) f =>
    if containsSub f.1 qn then (acc.1 + f.2.1, acc.2 ++ [f.2.2]) else acc) (0, [])

/-- The token-overlap count of `_score_match_free`: tokens of `qn` of
length ≥ 3 found in the concatenated haystack (duplicated tokens count
each time, as in the Python loop). -/
def tokenHitCount (qn : String) (it : Item) (noteText : String) : Nat :=
  let tokens := (splitWords qn).filter (fun t => 3 ≤ t.data.length)
  let hay := String.intercalate " "
    [lowerTitle it, lowerCreators it, lowerTags it, lowerPub it, lowerYear it, strLower noteText]
  tokens.countP (fun t => containsSub hay t)

/-- Does the `prefer_year` bonus of `_score_match_free` fire? -/
def preferYearHit (preferYear : Option String) (it : Item) : Bool :=
  match preferYear with
  | some y => y ≠ "" && strLower y = lowerYear it
  | none => false

/-- Does the `prefer_creator` bonus of `_score_match_free` fire? -/
def preferCreatorHit (preferCreator : Option String) (it : Item) : Bool :=
  match preferCreator with
  | some c => c ≠ "" && containsSub (lowerCreators it) (strLower c)
  | none => false

/-- `_score_match_free(q, item, note_text, prefer_year, prefer_creator)`:
integer score and comma-joined reason string. -/
def scoreMatchFree (q : String) (it : Item) (noteText : String)
    (preferYear preferCreator : Option String) : Nat × String :=
  let qn := strLower (strTrim q)
  if qn = "" then (0, "")
  else
    let (s0, r0) := fieldHits qn it noteText
    let th := tokenHitCount qn it noteText
    let (s1, r1) :=
      if th ≠ 0 then (s0 + min 10 th, r0 ++ ["token_hits:" ++ toString th]) else (s0, r0)
    let (s2, r2) :=
      if preferYearHit preferYear it then (s1 + 4, r1 ++ ["preferred_year"]) else (s1, r1)
    let (s3, r3) :=
      if preferCreatorHit preferCreator it then (s2 + 5, r2 ++ ["preferred_creator"]) else (s2, r2)
    (s3, String.intercalate "," r3)

/-! ## The bounded TTL + LRU cache `_Cache`

`self._store` is a Python dict `key -> (timestamp, value)`; we model it
as an association list with dict semantics (assignment replaces, `del`
removes the key).  `self._order` is the access-ordered list.  Wall
clock `time.time()` is an explicit `Nat` argument. -/

/-- Environment default `CACHE_MAX_ITEMS` (`os.getenv(..., "32")`). -/
def CACHE_MAX_ITEMS : Nat := 32

/-- Environment default `CACHE_TTL_SECONDS` (`os.getenv(..., "3600")`). -/
def CACHE_TTL_SECONDS : Nat := 3600

/-- The association-list model of the `_store` dict. -/
abbrev Store (α : Type) : Type := List (String × Nat × α)

/-- Dict lookup `self._store[key]` / `key in self._store`. -/
def storeLookup {α : Type} (s : Store α) (k : String) : Option (Nat × α) :=
  match s with
  | [] => none
  | (k', v) :: rest => if k' = k then some v else storeLookup rest k

/-- Dict deletion `del self._store[key]` (a dict has at most one entry
per key, so removing every matching entry is the dict behaviour). -/
def storeErase {α : Type} (s : Store α) (k : String) : Store α :=
  s.filter (fun e => e.1 ≠ k)

/-- Dict assignment `self._store[key] = v`. -/
def storeInsert {α : Type} (s : Store α) (k : String) (v : Nat × α) : Store α :=
  storeErase s k ++ [(k, v)]

/-- The `_Cache` object state. -/
structure Cache (α : Type) where
  maxItems : Nat
  ttl : Nat
  store : Store α
  order : List String

/-- `_Cache.__init__`. -/
def mkCache (α : Type) (maxItems ttl : Nat) : Cache α :=
  { maxItems := maxItems, ttl := ttl, store := [], order := [] }

/-- `_Cache.delete`. -/
def Cache.delete {α : Type} (c : Cache α) (k : String) : Cache α :=
  { c with store := storeErase c.store k, order := c.order.erase k }

/-- `_Cache.get`: expired entries (strictly older than `ttl`) are
deleted and reported absent; a hit moves the key to the back of
`_order`.  Returns the value (if any) and the updated cache. -/
def Cache.get {α : Type} (c : Cache α) (k : String) (now : Nat) : Option α × Cache α :=
  match storeLookup c.store k with
  | none => (none, c)
  | some (ts, v) =>
    if ts + c.ttl < now then
      (none, c.delete k)
    else
      (some v, { c with order := (c.order.erase k) ++ [k] })

/-- The `while len(self._order) > self.max_items` eviction loop of
`_Cache.set` (pops from the front of `_order`, deleting the popped key
from `_store`). -/
def evictLoop {α : Type} (maxItems : Nat) : List String → Store α → List String × Store α
  | [], store => ([], store)
  | o :: rest, store =>
    if maxItems < (o :: rest).length then evictLoop maxItems rest (storeErase store o)
    else (o :: rest, store)

/-- `_Cache.set`: refresh an existing key in place (no eviction), or
insert a new one and evict from the least-recently-used end while over
capacity. -/
def Cache.set {α : Type} (c : Cache α) (k : String) (v : α) (now : Nat) : Cache α :=
  if (storeLookup c.store k).isSome then
    { c with store := storeInsert c.store k (now, v),
             order := (c.order.erase k) ++ [k] }
  else
    let store' := storeInsert c.store k (now, v)
    let order' := c.order ++ [k]
    let (order'', store'') := evictLoop c.maxItems order' store'
    { c with store := store'', order := order'' }

/-! ## The `/search` endpoint `faceted_search`

Upstream I/O is modelled by explicit parameters: `batches` is the
sequence of raw pages successive `list_items` /
`list_items_in_collection` calls return (an exhausted upstream returns
`[]` forever), and `Oracles` holds the per-item children lookups
(`_pdf_attachment_keys`, plus `_get_notes_for_item` composed with
`_notes_to_plain_text` of the first note — the empty string when the
item has no notes). -/

/-- Upstream children lookups used inside the scan. -/
structure Oracles where
  pdfKeysOf : String → List String
  notePlainOf : String → String

/-- Query parameters of `faceted_search` (strings already passed
through `_to_str`, which maps `None` to `None`). -/
structure SearchParams where
  q : Option String := none
  title : Option String := none
  creator : Option String := none
  tag : Option String := none
  year : Option String := none
  collection_key : Option String := none
  itemType : Option String := none
  has_pdf : Bool := true
  has_notes : Bool := false
  limit : Nat := 20
  max_scan : Nat := 1600

/-- `limit = max(1, min(50, int(limit)))`. -/
def clampLimit (limit : Nat) : Nat := max 1 (min 50 limit)

/-- `max_scan = max(100, min(10000, int(max_scan)))`. -/
def clampMaxScan (maxScan : Nat) : Nat := max 100 (min 10000 maxScan)

/-- `free = " ".join([x for x in [q, title, creator, tag, year] if
isinstance(x, str) and x.strip()])`. -/
def freeOf (P : SearchParams) : String :=
  String.intercalate " "
    (([P.q, P.title, P.creator, P.tag, P.year].filterMap id).filter
      (fun s => strTrim s ≠ ""))

/-- `prefer_year = year or _parse_year_from_query(free)`. -/
def preferYearOf (P : SearchParams) : Option String :=
  match P.year with
  | some y => if y ≠ "" then some y else findYear (freeOf P)
  | none => findYear (freeOf P)

/-- A scored candidate tuple `(score, reason, item, note_plain[:400],
pdf_keys)` as appended to `candidates`. -/
structure Cand where
  score : Nat
  reason : String
  item : Item
  noteSnip : String
  pdfKeys : List String
  deriving DecidableEq, Repr

/-- Process one (already top-level-filtered) item of a batch: the
filter chain, the optional notes fetch, the optional PDF-children
check and the scoring.  Returns the candidate it contributes (if any)
and whether a PDF-children check (`_pdf_attachment_keys`) was
performed. -/
def processItem (P : SearchParams) (o : Oracles) (it : Item) : Option Cand × Bool :=
  let data := it.data
  if isTruthy P.itemType &&
     strLower (data.itemType.getD "") ≠ strLower (P.itemType.getD "") then (none, false)
  else if isTruthy P.tag &&
     !((tagsOf it).map strLower).contains (strLower (P.tag.getD "")) then (none, false)
  else if isTruthy P.title &&
     !containsSub (strLower (data.title.getD "")) (strLower (P.title.getD "")) then (none, false)
  else if isTruthy P.creator &&
     !containsSub (strLower (creatorString it)) (strLower (P.creator.getD "")) then (none, false)
  else if isTruthy P.year && P.year.getD "" ≠ yearOf it then (none, false)
  else
    match pyOr data.key it.key with
    | none => (none, false)
    | some key =>
      let notePlain := if P.has_notes then o.notePlainOf key else ""
      let (pdfKeys, checked) := if P.has_pdf then (o.pdfKeysOf key, true) else ([], false)
      if P.has_pdf && pdfKeys.isEmpty then (none, checked)
      else
        let free := freeOf P
        if free ≠ "" then
          let (score, reason) :=
            scoreMatchFree free it notePlain (preferYearOf P) P.creator
          if score = 0 then (none, checked)
          else (some ⟨score, reason, it, strTake notePlain 400, pdfKeys⟩, checked)
        else (some ⟨1, "filters_only", it, strTake notePlain 400, pdfKeys⟩, checked)

/-- The `while scanned < max_scan` pagination loop: each iteration
takes the next upstream page, keeps its top-level items, stops on an
empty (filtered) page, and otherwise accumulates candidates.  Returns
`(candidates, scanned, pdf_children_checks)` — the last component is
ghost instrumentation counting `_pdf_attachment_keys` calls. -/
def scanLoop (P : SearchParams) (o : Oracles) :
    List (List Item) → Nat → List Cand × Nat × Nat
  | [], scanned => ([], scanned, 0)
  | raw :: rest, scanned =>
    if scanned < clampMaxScan P.max_scan then
      let batch := raw.filter isTopLevelItem
      if batch.isEmpty then ([], scanned, 0)
      else
        let processed := batch.map (processItem P o)
        let cands := processed.filterMap Prod.fst
        let checks := processed.countP Prod.snd
        let (cs, sc, ch) := scanLoop P o rest (scanned + batch.length)
        (cands ++ cs, sc, checks + ch)
    else ([], scanned, 0)

/-! ### The sort of line 747

`candidates.sort(key=lambda x: (x[0], title), reverse=True)` — a stable
sort, descending by the pair (score, title).  We model it by a stable
insertion sort on the strict lexicographic order on that key (any two
stable sorts of the same strict weak order agree). -/

/-- The title component of the sort key:
`(x[2].get("data", {}) or {}).get("title", "")`. -/
def titleKey (c : Cand) : String :=
  c.item.data.title.getD ""

/-- Three-way code-point comparison of char lists (Python string
comparison). -/
def cmpChars : List Char → List Char → Ordering
  | [], [] => .eq
  | [], _ :: _ => .lt
  | _ :: _, [] => .gt
  | a :: as, b :: bs =>
    if a.toNat < b.toNat then .lt
    else if b.toNat < a.toNat then .gt
    else cmpChars as bs

/-- `key x < key y` for the sort key `(score, title)` (Python tuple
comparison). -/
def candLt (x y : Cand) : Bool :=
  Nat.blt x.score y.score ||
    (Nat.beq x.score y.score && cmpChars (titleKey x).data (titleKey y).data == .lt)

/-- Stable descending insertion: place `x` before the first element
whose key is not strictly greater. -/
def insertDesc (x : Cand) : List Cand → List Cand
  | [] => [x]
  | y :: ys => if candLt x y then y :: insertDesc x ys else x :: y :: ys

/-- The stable descending sort of `candidates` (line 747). -/
def sortCandidates : List Cand → List Cand
  | [] => []
  | c :: cs => insertDesc c (sortCandidates cs)

/-- The response of `faceted_search` (`pdfChecks` is the ghost
instrumentation carried out of `scanLoop`). -/
structure SearchResponse where
  query : String
  scanned_top_level_items : Nat
  results : List CompactRecord
  pdfChecks : Nat
  deriving Repr

/-- `faceted_search`: clamp, scan, sort, then emit at most `limit` of
the first `limit * 4` sorted candidates as compact records. -/
def facetedSearch (P : SearchParams) (o : Oracles) (batches : List (List Item)) :
    SearchResponse :=
  let (cands, scanned, checks) := scanLoop P o batches 0
  let sorted := sortCandidates cands
  let limit := clampLimit P.limit
  let results := ((sorted.take (limit * 4)).take limit).map
    (fun c => compactItem c.item (!c.pdfKeys.isEmpty) c.pdfKeys c.noteSnip c.reason c.score)
  { query := strTrim (freeOf P)
    scanned_top_level_items := scanned
    results := results
    pdfChecks := checks }

/-! ## PDF endpoints

A `fitz` document is modelled as the list of its per-page texts
(`doc[i].get_text() or ""`).  The download + open step
(`_download_pdf_bytes` and `fitz.open`) is modelled as an `Except`
parameter carrying either the page list or the `HTTPException` the code
raises (404 missing attachment, 400 non-PDF content type, 500 open
failure). -/

/-- An `HTTPException(status_code, detail)`. -/
structure HErr where
  status : Nat
  detail : String
  deriving DecidableEq, Repr

/-- `HTTPException(500, "PDF has zero pages")`. -/
def emptyDocumentError : HErr := ⟨500, "PDF has zero pages"⟩

/-- `HTTPException(400, "Invalid page range")`. -/
def invalidRangeError : HErr := ⟨400, "Invalid page range"⟩

/-- `_pdf_to_text_by_pages`: cache probe, fetch, zero-page check,
clamp, range check, join the non-empty page texts of the 1-based range
`[pf, pt]` with blank lines, truncate at `max_chars`. -/
def pdfToTextByPages (fetch : Except HErr (List String)) (cache : Cache String) (now : Nat)
    (attachmentKey : String) (pageFrom pageTo : Int) (maxChars : Nat) (useCache : Bool) :
    Except HErr String × Cache String :=
  let ckey := "pdftext:" ++ attachmentKey ++ ":" ++ toString pageFrom ++ ":" ++
    toString pageTo ++ ":" ++ toString maxChars
  let (cached, cache1) := if useCache then cache.get ckey now else (none, cache)
  match cached with
  | some t => (.ok t, cache1)
  | none =>
    match fetch with
    | .error e => (.error e, cache1)
    | .ok pages =>
      let n := pages.length
      if n = 0 then (.error emptyDocumentError, cache1)
      else
        let pf := max 1 pageFrom
        let pt := min (n : Int) pageTo
        if pt < pf then (.error invalidRangeError, cache1)
        else
          let texts := ((pages.drop (pf.toNat - 1)).take ((pt - pf).toNat + 1)).filter
            (fun t => t ≠ "")
          let joined := String.intercalate "\n\n" texts
          let final :=
            if maxChars < joined.data.length then strTake joined maxChars ++ "\n\n[...TRUNCATED...]"
            else joined
          (.ok final, if useCache then cache1.set ckey final now else cache1)

/-- Non-overlapping, left-to-right match positions `(start, end)` of
`needle` in `hay` (model of `re.finditer(re.escape(phrase), text)`;
the case-insensitive flag is modelled by passing lowered inputs).
`fuel` is initialised to `hay.length`. -/
def findMatchesAux (needle : List Char) : Nat → Nat → List Char → List (Nat × Nat)
  | 0, _, _ => []
  | _ + 1, _, [] => []
  | fuel + 1, i, c :: t =>
    if needle.isPrefixOf (c :: t) then
      (i, i + needle.length) ::
        findMatchesAux needle fuel (i + needle.length) ((c :: t).drop needle.length)
    else
      findMatchesAux needle fuel (i + 1) t

/-- All match positions of `needle` in `hay`. -/
def findMatches (hay needle : String) : List (Nat × Nat) :=
  findMatchesAux needle.data hay.data.length 0 hay.data

/-- One hit of the in-PDF phrase search: context window and (possibly
unresolved) 1-based page number. -/
structure PdfHit where
  context : String
  page : Option Nat
  deriving DecidableEq, Repr

/-- The result dictionary of `_pdf_find_phrase`.  The early empty-phrase
return carries only `phrase` and `hits`, hence the `Option` page
counters. -/
structure PhraseResult where
  phrase : String
  pages_scanned : Option Nat
  total_pages : Option Nat
  hits : List PdfHit
  deriving DecidableEq, Repr

/-- The page-attribution loop of `_pdf_find_phrase`: walk the scanned
pages in order; on the page with index `pageNo - 1` the `search_for`
primitive reports `r` rectangles, each of which resolves the page of
the next unresolved hit, stopping once every hit is resolved.  Returns
the list of resolved page numbers, in hit order (`remaining` starts as
the number of hits; each page contributes `min r remaining`
assignments of its 1-based number). -/
def assignPages : List Nat → Nat → Nat → List Nat
  | [], _, _ => []
  | r :: rs, pageNo, remaining =>
    if remaining = 0 then []
    else List.replicate (min r remaining) pageNo ++
      assignPages rs (pageNo + 1) (remaining - min r remaining)

/-- Attach the resolved page numbers to the hit list in order; hits
beyond the resolved prefix keep `page = None`. -/
def attachPages : List PdfHit → List Nat → List PdfHit
  | [], _ => []
  | h :: hs, [] => h :: attachPages hs []
  | h :: hs, p :: ps => { h with page := some p } :: attachPages hs ps

/-- `_pdf_find_phrase`.  `searchForCount i` is the number of rectangles
`doc[i].search_for(phrase_clean)` reports on 0-based page `i` (an
external PyMuPDF layout primitive). -/
def pdfFindPhrase (fetch : Except HErr (List String)) (searchForCount : Nat → Nat)
    (cache : Cache String) (now : Nat) (attachmentKey phrase : String)
    (maxPages maxHits contextChars : Nat) (useCache : Bool) :
    Except HErr PhraseResult × Cache String :=
  let phraseClean := strTrim phrase
  if phraseClean = "" then (.ok ⟨phrase, none, none, []⟩, cache)
  else
    match fetch with
    | .error e => (.error e, cache)
    | .ok pages =>
      let totalPages := pages.length
      let pagesToScan := min totalPages maxPages
      let ckey := "pdfcoarse:" ++ attachmentKey ++ ":1:" ++ toString pagesToScan
      let (cached, cache1) := if useCache then cache.get ckey now else (none, cache)
      let (coarse, cache2) :=
        match cached with
        | some t => (t, cache1)
        | none =>
          let t := String.intercalate "\n\n" (pages.take pagesToScan)
          (t, if useCache then cache1.set ckey t now else cache1)
      let ms := (findMatches (strLower coarse) (strLower phraseClean)).take maxHits
      let hits0 : List PdfHit := ms.map (fun m =>
        { context := strTrim (strSlice coarse (m.1 - contextChars) (m.2 + contextChars))
          page := none })
      let rcounts := (List.range pagesToScan).map searchForCount
      let hits := attachPages hits0 (assignPages rcounts 1 hits0.length)
      (.ok ⟨phraseClean, some pagesToScan, some totalPages, hits⟩, cache2)

/-! ## Mojibake repair (spec-modelled)

`src/` contains no text-normalizer: the `repair` function exists only
in the specification (section 4.1).  Everything below is therefore
modelled from the spec, not from repository code.  Strings are lists of
Unicode code points (`Nat`). -/

/-- Modelled from the spec: Latin-1 encoding of one code point
(`s.encode("latin-1")`) — defined exactly on `U+0000–U+00FF`. -/
def latin1Encode (c : Nat) : Option Nat :=
  if c ≤ 0xFF then some c else none

/-- Modelled from the spec: CP1252 encoding of one code point
(`s.encode("cp1252")`): ASCII and `U+00A0–U+00FF` map to themselves,
the 27 characters of the `0x80–0x9F` block map to their CP1252 byte,
everything else fails. -/
def cp1252Encode (c : Nat) : Option Nat :=
  if c ≤ 0x7F then some c
  else if 0xA0 ≤ c ∧ c ≤ 0xFF then some c
  else
    match c with
    | 0x20AC => some 0x80
    | 0x201A => some 0x82
    | 0x0192 => some 0x83
    | 0x201E => some 0x84
    | 0x2026 => some 0x85
    | 0x2020 => some 0x86
    | 0x2021 => some 0x87
    | 0x02C6 => some 0x88
    | 0x2030 => some 0x89
    | 0x0160 => some 0x8A
    | 0x2039 => some 0x8B
    | 0x0152 => some 0x8C
    | 0x017D => some 0x8E
    | 0x2018 => some 0x91
    | 0x2019 => some 0x92
    | 0x201C => some 0x93
    | 0x201D => some 0x94
    | 0x2022 => some 0x95
    | 0x2013 => some 0x96
    | 0x2014 => some 0x97
    | 0x02DC => some 0x98
    | 0x2122 => some 0x99
    | 0x0161 => some 0x9A
    | 0x203A => some 0x9B
    | 0x0153 => some 0x9C
    | 0x017E => some 0x9E
    | 0x0178 => some 0x9F
    | _ => none

/-- Is `b` a UTF-8 continuation byte? -/
def isCont (b : Nat) : Bool := 0x80 ≤ b ∧ b ≤ 0xBF

/-- Modelled from the spec: strict UTF-8 decoding of a byte list
(`bytes.decode("utf-8")`), rejecting overlong forms and surrogates.
`fuel` is initialised to the byte count and bounds the recursion. -/
def utf8DecodeAux : Nat → List Nat → Option (List Nat)
  | _, [] => some []
  | 0, _ :: _ => none
  | fuel + 1, b :: rest =>
    if b ≤ 0x7F then (utf8DecodeAux fuel rest).map (b :: ·)
    else if 0xC2 ≤ b ∧ b ≤ 0xDF then
      match rest with
      | b2 :: rest2 =>
        if isCont b2 then
          (utf8DecodeAux fuel rest2).map (((b - 0xC0) * 0x40 + (b2 - 0x80)) :: ·)
        else none
      | [] => none
    else if 0xE0 ≤ b ∧ b ≤ 0xEF then
      match rest with
      | b2 :: b3 :: rest3 =>
        if isCont b2 && isCont b3 &&
           (b ≠ 0xE0 || 0xA0 ≤ b2) && (b ≠ 0xED || b2 ≤ 0x9F) then
          (utf8DecodeAux fuel rest3).map
            ((((b - 0xE0) * 0x1000 + (b2 - 0x80) * 0x40 + (b3 - 0x80))) :: ·)
        else none
      | _ => none
    else if 0xF0 ≤ b ∧ b ≤ 0xF4 then
      match rest with
      | b2 :: b3 :: b4 :: rest4 =>
        if isCont b2 && isCont b3 && isCont b4 &&
           (b ≠ 0xF0 || 0x90 ≤ b2) && (b ≠ 0xF4 || b2 ≤ 0x8F) then
          (utf8DecodeAux fuel rest4).map
            ((((b - 0xF0) * 0x40000 + (b2 - 0x80) * 0x1000 + (b3 - 0x80) * 0x40 + (b4 - 0x80))) :: ·)
        else none
      | _ => none
    else none

/-- Strict UTF-8 decode. -/
def utf8Decode (bs : List Nat) : Option (List Nat) :=
  utf8DecodeAux bs.length bs

/-- Modelled from the spec: the number of mojibake-marker occurrences
used to score repair candidates — occurrences of `Ã` (U+00C3) or `Â`
(U+00C2) followed by further text, the two-point artifact `â€`
(U+00E2 U+20AC), and the replacement character U+FFFD. -/
def markerCount : List Nat → Nat
  | [] => 0
  | [c] => if c = 0xC3 ∨ c = 0xC2 ∨ c = 0xFFFD then 1 else 0
  | c :: c2 :: rest =>
    (if c = 0xE2 ∧ c2 = 0x20AC then 1
     else if c = 0xC3 ∨ c = 0xC2 ∨ c = 0xFFFD then 1 else 0) +
    markerCount (c2 :: rest)

/-- Modelled from the spec: the fixed table of literal residual-sequence
replacements (mojibake forms of curly quotes, en/em dash, ellipsis,
copyright/section/degree signs, and non-breaking space → space). -/
def replTable : List (List Nat × List Nat) :=
  [([0xE2, 0x20AC, 0x2122], [0x2019]),
   ([0xE2, 0x20AC, 0x0153], [0x201C]),
   ([0xE2, 0x20AC, 0x2013], [0x2013]),
   ([0xE2, 0x20AC, 0x2014], [0x2014]),
   ([0xE2, 0x20AC, 0xA6], [0x2026]),
   ([0xC2, 0xA9], [0xA9]),
   ([0xC2, 0xA7], [0xA7]),
   ([0xC2, 0xB0], [0xB0]),
   ([0xC2, 0xA0], [0x20]),
   ([0xA0], [0x20])]

/-- First table entry whose pattern is a prefix of `s`. -/
def findRepl (s : List Nat) : Option (List Nat × List Nat) :=
  replTable.find? (fun e => e.1.isPrefixOf s)

/-- Apply the replacement table left to right (`fuel` is initialised to
the length). -/
def applyRepls : Nat → List Nat → List Nat
  | 0, s => s
  | _ + 1, [] => []
  | fuel + 1, c :: rest =>
    match findRepl (c :: rest) with
    | some (pat, rep) => rep ++ applyRepls fuel ((c :: rest).drop pat.length)
    | none => c :: applyRepls fuel rest

/-- Modelled from the spec (section 4.1): `repair` — short-circuit when
no marker occurs; otherwise re-encode as Latin-1 / CP1252 and re-decode
as UTF-8, keep a candidate only when it strictly lowers the marker
count (defaulting to the original on ties or encode/decode failure),
then apply the residual replacement table. -/
def mojibakeRepair (s : List Nat) : List Nat :=
  if markerCount s = 0 then s
  else
    let cand1 := (s.mapM latin1Encode).bind utf8Decode
    let cand2 := (s.mapM cp1252Encode).bind utf8Decode
    let best1 :=
      match cand1 with
      | some c => if markerCount c < markerCount s then c else s
      | none => s
    let best2 :=
      match cand2 with
      | some c => if markerCount c < markerCount best1 then c else best1
      | none => best1
    applyRepls best2.length best2

/-! ## Concrete fixtures used in the theorems below -/

/-- The key-match predicate used to state stability. -/
def keyMatch (sc : Nat) (t : String) (c : Cand) : Bool :=
  c.score == sc && titleKey c == t

/-- A top-level item titled "alpha", scanned first in the concrete
counterexample run. -/
def itemAlpha : Item :=
  { key := some "KA", data := { key := some "KA", itemType := some "book", title := some "alpha" } }

/-- A top-level item titled "beta", scanned second. -/
def itemBeta : Item :=
  { key := some "KB", data := { key := some "KB", itemType := some "book", title := some "beta" } }

/-- Children oracles for a library with no attachments and no notes. -/
def noPdfOracles : Oracles := ⟨fun _ => [], fun _ => ""⟩

/-- A query with no text terms and no PDF requirement (filters-only
mode, every record scores 1). -/
def filtersOnlyParams : SearchParams := { has_pdf := false }

/-- The pre-PDF filter chain of the scan loop: an item passes when none
of the itemType/tag/title/creator/year filters rejects it and it has a
key — exactly the items that reach the `_pdf_attachment_keys` check
when `has_pdf` is set. -/
def prePdfPass (P : SearchParams) (it : Item) : Bool :=
  if isTruthy P.itemType &&
      strLower (it.data.itemType.getD "") ≠ strLower (P.itemType.getD "") then false
  else if isTruthy P.tag &&
      !((tagsOf it).map strLower).contains (strLower (P.tag.getD "")) then false
  else if isTruthy P.title &&
      !containsSub (strLower (it.data.title.getD "")) (strLower (P.title.getD "")) then false
  else if isTruthy P.creator &&
      !containsSub (strLower (creatorString it)) (strLower (P.creator.getD "")) then false
  else if isTruthy P.year && P.year.getD "" ≠ yearOf it then false
  else
    match pyOr it.data.key it.key with
    | none => false
    | some _ => true

/-- The top-level items the pagination loop actually processes (same
page-taking discipline as `scanLoop`). -/
def scannedItems (P : SearchParams) : List (List Item) → Nat → List Item
  | [], _ => []
  | raw :: rest, scanned =>
    if scanned < clampMaxScan P.max_scan then
      let batch := raw.filter isTopLevelItem
      if batch.isEmpty then []
      else batch ++ scannedItems P rest (scanned + batch.length)
    else []

/-- Children oracles where every item owns one PDF attachment. -/
def pdfOracles : Oracles := ⟨fun _ => ["P"], fun _ => ""⟩

/-- A plain top-level book item with the given key. -/
def mkBook (k : String) : Item :=
  { key := some k, data := { key := some k, itemType := some "book" } }

/-- One upstream page of six matching books. -/
def sixBooks : List Item :=
  [mkBook "K1", mkBook "K2", mkBook "K3", mkBook "K4", mkBook "K5", mkBook "K6"]

/-- The 1999 item of the scorer counterexample. -/
def itemY : Item := { data := { title := some "alpha", date := some "1999" } }

/-- The free-text score exactly as claim C5 words it: each query token
found in the haystack built from title, creators, venue and tags
contributes 1, a matching free-text year contributes +2, a matching
preferred-creator substring contributes +2 (refinement spec, for
comparison with `scoreMatchFree`). -/
def claimFreeScore (q : String) (it : Item) (preferYear preferCreator : Option String) : Nat :=
  let qn := strLower (strTrim q)
  let hay := String.intercalate " " [lowerTitle it, lowerCreators it, lowerPub it, lowerTags it]
  (splitWords qn).countP (fun t => containsSub hay t) +
  (if preferYearHit preferYear it then 2 else 0) +
  (if preferCreatorHit preferCreator it then 2 else 0)

/-- The concrete phrase-search result used to witness
`pdfFindPhrase_hits_pages`. -/
def phraseResultW : PhraseResult :=
  { phrase := "a", pages_scanned := some 1, total_pages := some 1,
    hits := [{ context := "ab", page := some 1 }] }

/-! ## Theorems on the result ordering (line 747) -/

theorem char_eq_of_toNat_eq {a b : Char} (h : a.toNat = b.toNat) : a = b :=
  Char.eq_of_val_eq (UInt32.eq_of_toBitVec_eq (BitVec.eq_of_toNat_eq h))

theorem cmpChars_eq_iff : ∀ (a b : List Char), cmpChars a b = .eq ↔ a = b := by
  intro a
  induction a with
  | nil => intro b; cases b <;> simp [cmpChars]
  | cons x xs ih =>
    intro b
    cases b with
    | nil => simp [cmpChars]
    | cons y ys =>
      rw [cmpChars]
      by_cases h1 : x.toNat < y.toNat
      · simp only [if_pos h1]
        constructor
        · intro h; exact absurd h (by decide)
        · intro h
          injection h with hx _
          subst hx
          exact absurd h1 (by omega)
      · by_cases h2 : y.toNat < x.toNat
        · simp only [if_neg h1, if_pos h2]
          constructor
          · intro h; exact absurd h (by decide)
          · intro h
            injection h with hx _
            subst hx
            exact absurd h2 (by omega)
        · have hxy : x = y := char_eq_of_toNat_eq (by omega)
          simp [if_neg h1, if_neg h2, ih, hxy]

theorem cmpChars_swap : ∀ (a b : List Char), cmpChars b a = (cmpChars a b).swap := by
  intro a
  induction a with
  | nil => intro b; cases b <;> simp [cmpChars, Ordering.swap]
  | cons x xs ih =>
    intro b
    cases b with
    | nil => simp [cmpChars, Ordering.swap]
    | cons y ys =>
      rw [cmpChars, cmpChars]
      by_cases h1 : x.toNat < y.toNat
      · simp [h1, (by omega : ¬ y.toNat < x.toNat), Ordering.swap]
        omega
      · by_cases h2 : y.toNat < x.toNat
        · simp [h1, h2, Ordering.swap]
        · simp [h1, h2, ih]

theorem cmpChars_lt_trans :
    ∀ (a b c : List Char), cmpChars a b = .lt → cmpChars b c = .lt → cmpChars a c = .lt := by
  intro a
  induction a with
  | nil =>
    intro b c hab hbc
    cases b with
    | nil => simp [cmpChars] at hab
    | cons y ys =>
      cases c with
      | nil => simp [cmpChars] at hbc
      | cons z zs => rfl
  | cons x xs ih =>
    intro b c hab hbc
    cases b with
    | nil => simp [cmpChars] at hab
    | cons y ys =>
      cases c with
      | nil => simp [cmpChars] at hbc
      | cons z zs =>
        rw [cmpChars] at hab hbc ⊢
        by_cases h1 : x.toNat < y.toNat
        · by_cases h2 : y.toNat < z.toNat
          · rw [if_pos (by omega : x.toNat < z.toNat)]
          · by_cases h3 : z.toNat < y.toNat
            · simp [h2, h3] at hbc
            · rw [if_pos (by omega : x.toNat < z.toNat)]
        · by_cases h4 : y.toNat < x.toNat
          · simp [h1, h4] at hab
          · by_cases h2 : y.toNat < z.toNat
            · rw [if_pos (by omega : x.toNat < z.toNat)]
            · by_cases h3 : z.toNat < y.toNat
              · simp [h2, h3] at hbc
              · rw [if_neg (by omega : ¬ x.toNat < z.toNat),
                  if_neg (by omega : ¬ z.toNat < x.toNat)]
                rw [if_neg h1, if_neg h4] at hab
                rw [if_neg h2, if_neg h3] at hbc
                exact ih ys zs hab hbc

theorem ordering_beq_lt_iff (a : Ordering) : (a == Ordering.lt) = true ↔ a = Ordering.lt := by
  cases a <;> decide

theorem candLt_iff {x y : Cand} :
    candLt x y = true ↔
      (x.score < y.score ∨
        (x.score = y.score ∧ cmpChars (titleKey x).data (titleKey y).data = .lt)) := by
  simp [candLt, Nat.blt_eq, Nat.beq_eq_true_eq, ordering_beq_lt_iff]

theorem candLt_asymm {x y : Cand} (h : candLt x y = true) : candLt y x = false := by
  rw [← Bool.not_eq_true, candLt_iff]
  rw [candLt_iff] at h
  push_neg
  constructor
  · rcases h with h | ⟨hs, _⟩ <;> omega
  · intro hs
    rcases h with h | ⟨_, hc⟩
    · omega
    · rw [cmpChars_swap, hc]
      decide

theorem candLt_false_iff {x y : Cand} :
    candLt x y = false ↔
      (y.score < x.score ∨
        (x.score = y.score ∧ cmpChars (titleKey x).data (titleKey y).data ≠ .lt)) := by
  rw [← Bool.not_eq_true, candLt_iff]
  push_neg
  constructor
  · intro ⟨h1, h2⟩
    by_cases hs : x.score = y.score
    · exact Or.inr ⟨hs, h2 hs⟩
    · exact Or.inl (by omega)
  · intro h
    rcases h with h | ⟨hs, hc⟩
    · exact ⟨by omega, fun hs => absurd hs (by omega)⟩
    · exact ⟨by omega, fun _ => hc⟩

theorem candLt_neg_trans {x y z : Cand} (hxy : candLt x y = false)
    (hyz : candLt y z = false) : candLt x z = false := by
  rw [candLt_false_iff] at hxy hyz ⊢
  rcases hxy with h1 | ⟨hs1, hc1⟩
  · rcases hyz with h2 | ⟨hs2, _⟩
    · exact Or.inl (by omega)
    · exact Or.inl (by omega)
  · rcases hyz with h2 | ⟨hs2, hc2⟩
    · exact Or.inl (by omega)
    · refine Or.inr ⟨by omega, fun hlt => ?_⟩
      rcases h1 : cmpChars (titleKey x).data (titleKey y).data with _ | _ | _
      · exact hc1 h1
      · rw [cmpChars_eq_iff] at h1
        rw [h1] at hlt
        exact hc2 hlt
      · rcases h2 : cmpChars (titleKey y).data (titleKey z).data with _ | _ | _
        · exact hc2 h2
        · rw [cmpChars_eq_iff] at h2
          rw [← h2] at hlt
          rw [hlt] at h1
          exact Ordering.noConfusion h1
        · have hzy : cmpChars (titleKey z).data (titleKey y).data = .lt := by
            rw [cmpChars_swap, h2]; rfl
          have hyx : cmpChars (titleKey y).data (titleKey x).data = .lt := by
            rw [cmpChars_swap, h1]; rfl
          have hzx := cmpChars_lt_trans _ _ _ hzy hyx
          have hgt : cmpChars (titleKey x).data (titleKey z).data = .gt := by
            rw [cmpChars_swap, hzx]; rfl
          rw [hlt] at hgt
          exact Ordering.noConfusion hgt

theorem mem_insertDesc (x : Cand) (l : List Cand) (a : Cand) :
    a ∈ insertDesc x l ↔ a = x ∨ a ∈ l := by
  induction l with
  | nil => simp [insertDesc]
  | cons y ys ih =>
    rw [insertDesc]
    by_cases hc : candLt x y = true
    · simp only [if_pos hc, List.mem_cons, ih]
      tauto
    · simp only [if_neg hc, List.mem_cons]

theorem pairwise_insertDesc (x : Cand) (l : List Cand)
    (h : l.Pairwise (fun a b => candLt a b = false)) :
    (insertDesc x l).Pairwise (fun a b => candLt a b = false) := by
  induction l with
  | nil => simp [insertDesc]
  | cons y ys ih =>
    rw [List.pairwise_cons] at h
    rw [insertDesc]
    by_cases hc : candLt x y = true
    · rw [if_pos hc, List.pairwise_cons]
      constructor
      · intro b hb
        rcases (mem_insertDesc x ys b).mp hb with rfl | hb'
        · exact candLt_asymm hc
        · exact h.1 b hb'
      · exact ih h.2
    · rw [if_neg hc, List.pairwise_cons]
      have hxy : candLt x y = false := by
        cases hxy : candLt x y
        · rfl
        · exact absurd hxy hc
      constructor
      · intro b hb
        rcases List.mem_cons.mp hb with rfl | hb'
        · exact hxy
        · exact candLt_neg_trans hxy (h.1 b hb')
      · exact List.pairwise_cons.mpr h

theorem sortCandidates_pairwise (l : List Cand) :
    (sortCandidates l).Pairwise (fun a b => candLt a b = false) := by
  induction l with
  | nil => simp [sortCandidates]
  | cons c cs ih => exact pairwise_insertDesc c (sortCandidates cs) ih

theorem insertDesc_perm (x : Cand) (l : List Cand) : (insertDesc x l).Perm (x :: l) := by
  induction l with
  | nil => simp [insertDesc]
  | cons y ys ih =>
    rw [insertDesc]
    by_cases hc : candLt x y = true
    · rw [if_pos hc]
      exact (ih.cons y).trans (List.Perm.swap x y ys)
    · rw [if_neg hc]

theorem sortCandidates_perm (l : List Cand) : (sortCandidates l).Perm l := by
  induction l with
  | nil => simp [sortCandidates]
  | cons c cs ih =>
    exact (insertDesc_perm c (sortCandidates cs)).trans (ih.cons c)

theorem keyMatch_true_iff {sc : Nat} {t : String} {c : Cand} :
    keyMatch sc t c = true ↔ c.score = sc ∧ titleKey c = t := by
  simp [keyMatch]

theorem candLt_false_of_keyMatch {sc : Nat} {t : String} {x y : Cand}
    (hx : keyMatch sc t x = true) (hy : keyMatch sc t y = true) :
    candLt x y = false := by
  rw [keyMatch_true_iff] at hx hy
  rw [candLt_false_iff]
  refine Or.inr ⟨by omega, ?_⟩
  have ht : titleKey x = titleKey y := by rw [hx.2, hy.2]
  rw [ht, (cmpChars_eq_iff (titleKey y).data (titleKey y).data).mpr rfl]
  decide

theorem filter_insertDesc_pos (x : Cand) (l : List Cand) (sc : Nat) (t : String)
    (hx : keyMatch sc t x = true) :
    (insertDesc x l).filter (keyMatch sc t) = x :: l.filter (keyMatch sc t) := by
  induction l with
  | nil => simp [insertDesc, List.filter_cons, hx]
  | cons y ys ih =>
    rw [insertDesc]
    by_cases hc : candLt x y = true
    · have hy : keyMatch sc t y = false := by
        cases hy : keyMatch sc t y
        · rfl
        · exact absurd (candLt_false_of_keyMatch hx hy) (by rw [hc]; decide)
      rw [if_pos hc, List.filter_cons, hy]
      simp only [Bool.false_eq_true, if_neg (by decide : ¬ False = True)]
      rw [ih, List.filter_cons, hy]
      simp

    · rw [if_neg hc, List.filter_cons, hx]
      simp

theorem filter_insertDesc_neg (x : Cand) (l : List Cand) (sc : Nat) (t : String)
    (hx : keyMatch sc t x = false) :
    (insertDesc x l).filter (keyMatch sc t) = l.filter (keyMatch sc t) := by
  induction l with
  | nil => simp [insertDesc, List.filter_cons, hx]
  | cons y ys ih =>
    rw [insertDesc]
    by_cases hc : candLt x y = true
    · rw [if_pos hc, List.filter_cons, List.filter_cons]
      cases hy : keyMatch sc t y <;> simp [hy, ih]
    · rw [if_neg hc, List.filter_cons, hx, List.filter_cons]
      simp

theorem sortCandidates_filter (l : List Cand) (sc : Nat) (t : String) :
    (sortCandidates l).filter (keyMatch sc t) = l.filter (keyMatch sc t) := by
  induction l with
  | nil => rfl
  | cons c cs ih =>
    rw [sortCandidates]
    cases hc : keyMatch sc t c
    · rw [filter_insertDesc_neg c (sortCandidates cs) sc t hc, ih,
        List.filter_cons, hc]
      simp
    · rw [filter_insertDesc_pos c (sortCandidates cs) sc t hc, ih,
        List.filter_cons, hc]
      simp

/-- C1 (amended): the candidate sort of `faceted_search` orders
descending by the key `(score, title)` (so equal scores are
tie-broken by title, descending), is a permutation of the scanned
candidates, and is stable only within equal `(score, title)` keys:
candidates sharing both score and title keep their scan order. -/
theorem faceted_sort_spec (l : List Cand) :
    (sortCandidates l).Pairwise (fun a b => candLt a b = false) ∧
    (sortCandidates l).Perm l ∧
    ∀ sc t, (sortCandidates l).filter (keyMatch sc t) = l.filter (keyMatch sc t) :=
  ⟨sortCandidates_pairwise l, sortCandidates_perm l,
   fun sc t => sortCandidates_filter l sc t⟩

/-- C1 counterexample: two records with equal score 1, scanned in the
order alpha-then-beta, come back beta-then-alpha — the sort breaks
score ties by title descending, not by scan order, so the record
encountered earlier does not keep its earlier position. -/
theorem faceted_sort_not_scan_stable :
    (facetedSearch filtersOnlyParams noPdfOracles [[itemAlpha, itemBeta]]).results.map
        (fun r => (r.score, r.title)) = [(1, some "beta"), (1, some "alpha")] := by
  decide

/-! ## Theorems on the PDF endpoints -/

/-- C7 (amended part): a phrase that is empty after trimming makes
`_pdf_find_phrase` return success — the original phrase, an empty hit
list and no page counters — before any download or error is possible;
it does not raise a 400. -/
theorem pdfFindPhrase_empty_phrase (fetch : Except HErr (List String))
    (sfc : Nat → Nat) (cache : Cache String) (now : Nat) (key phrase : String)
    (mp mh cc : Nat) (uc : Bool) (h : strTrim phrase = "") :
    pdfFindPhrase fetch sfc cache now key phrase mp mh cc uc =
      (.ok ⟨phrase, none, none, []⟩, cache) := by
  rw [pdfFindPhrase.eq_def]
  simp [h]

/-- Witness for `pdfFindPhrase_empty_phrase` at a concrete blank
phrase. -/
theorem pdfFindPhrase_empty_phrase_witness :
    pdfFindPhrase (.ok ["sample page"]) (fun _ => 0) (mkCache String 32 3600) 0
      "K" " " 120 20 160 false =
      (.ok ⟨" ", none, none, []⟩, mkCache String 32 3600) :=
  pdfFindPhrase_empty_phrase (.ok ["sample page"]) (fun _ => 0) (mkCache String 32 3600) 0
    "K" " " 120 20 160 false (by decide)

/-- C7 counterexample: with a blank phrase the in-PDF search returns a
`200`-style success carrying empty hits — even when the attachment
itself would 404 — instead of the InvalidArgument/400 failure the claim
requires. -/
theorem pdfFindPhrase_empty_phrase_no_error :
    pdfFindPhrase (.error ⟨404, "PDF not found in Zotero Storage"⟩) (fun _ => 0)
      (mkCache String 32 3600) 0 "ATTKEY" "   " 120 20 160 true =
      (.ok ⟨"   ", none, none, []⟩, mkCache String 32 3600) ∧
    (pdfFindPhrase (.error ⟨404, "PDF not found in Zotero Storage"⟩) (fun _ => 0)
      (mkCache String 32 3600) 0 "ATTKEY" "   " 120 20 160 true).1 ≠
      .error ⟨400, "Empty phrase"⟩ := by
  constructor
  · rfl
  · intro h
    simp [pdfFindPhrase, strTrim, isSpaceChar] at h

/-- C8: `_pdf_to_text_by_pages` (on a fresh extraction, `use_cache`
off) fails with the zero-page error on an empty document; otherwise it
fails with the invalid-range error exactly when `page_from > page_to`
after clamping `page_from` to ≥ 1 and `page_to` to ≤ the page count;
and its behaviour on any range equals its behaviour on the clamped
range. -/
theorem pdfToTextByPages_range_spec (pages : List String) (cache : Cache String)
    (now : Nat) (key : String) (pf pt : Int) (mc : Nat) :
    (pages.length = 0 →
      (pdfToTextByPages (.ok pages) cache now key pf pt mc false).1 =
        .error emptyDocumentError) ∧
    (pages.length ≠ 0 →
      ((pdfToTextByPages (.ok pages) cache now key pf pt mc false).1 =
          .error invalidRangeError ↔ min (pages.length : Int) pt < max 1 pf)) ∧
    (pdfToTextByPages (.ok pages) cache now key pf pt mc false).1 =
      (pdfToTextByPages (.ok pages) cache now key (max 1 pf)
        (min (pages.length : Int) pt) mc false).1 := by
  refine ⟨?_, ?_, ?_⟩
  · intro h0
    simp [pdfToTextByPages, h0]
  · intro hn
    rw [pdfToTextByPages]
    simp only [if_neg (by simp : ¬False), Bool.false_eq_true]
    constructor
    · intro h
      by_cases hr : min (pages.length : Int) pt < max 1 pf
      · exact hr
      · exfalso
        simp [hn, hr] at h
    · intro hr
      simp [hn, hr]
  · rw [pdfToTextByPages, pdfToTextByPages]
    by_cases h0 : pages.length = 0
    · simp [h0]
    · have h1 : max 1 (max 1 pf) = max 1 pf := by
        rw [max_comm 1 (max 1 pf), max_eq_left (le_max_left 1 pf)]
      have h2 : min (pages.length : Int) (min (pages.length : Int) pt) =
          min (pages.length : Int) pt := by
        rw [min_comm (pages.length : Int) (min (pages.length : Int) pt),
          min_eq_left (min_le_left (pages.length : Int) pt)]
      simp [h0, h1, h2]

/-- Witness for `pdfToTextByPages_range_spec`: the zero-page and
invalid-range failures at concrete inputs. -/
theorem pdfToTextByPages_range_spec_witness :
    ((pdfToTextByPages (.ok []) (mkCache String 32 3600) 0 "K" 1 50 100 false).1 =
      .error emptyDocumentError) ∧
    ((pdfToTextByPages (.ok ["p1", "p2"]) (mkCache String 32 3600) 0 "K" 7 9 100 false).1 =
      .error invalidRangeError) :=
  ⟨(pdfToTextByPages_range_spec [] (mkCache String 32 3600) 0 "K" 1 50 100).1 rfl,
   ((pdfToTextByPages_range_spec ["p1", "p2"] (mkCache String 32 3600) 0 "K" 7 9 100).2.1
      (by decide)).2 (by decide)⟩

/-! ## Theorems on mojibake repair (spec-modelled) -/

/-- C9 (amended part): the spec's `repair` leaves marker-free strings
unchanged, and is idempotent on every input whose one-pass output is
marker-free. -/
theorem mojibakeRepair_clean_fixed (s : List Nat) :
    (markerCount s = 0 → mojibakeRepair s = s) ∧
    (markerCount (mojibakeRepair s) = 0 →
      mojibakeRepair (mojibakeRepair s) = mojibakeRepair s) := by
  constructor
  · intro h
    rw [mojibakeRepair, if_pos h]
  · intro h
    rw [mojibakeRepair, if_pos h]

/-- Witness for `mojibakeRepair_clean_fixed` on concrete inputs (a
marker-free string, and a singly-mojibaked string whose repair is
marker-free). -/
theorem mojibakeRepair_clean_fixed_witness :
    mojibakeRepair [0x68, 0x69] = [0x68, 0x69] ∧
    mojibakeRepair (mojibakeRepair [0xC3, 0xA9]) = mojibakeRepair [0xC3, 0xA9] :=
  ⟨(mojibakeRepair_clean_fixed [0x68, 0x69]).1 (by decide),
   (mojibakeRepair_clean_fixed [0xC3, 0xA9]).2 (by decide)⟩

/-- C9 counterexample: `repair` is not idempotent on all strings — on
the doubly-mojibaked `"ÃƒÂ©"` (the twice-misdecoded `é`) one pass
yields `"Ã©"` and a second pass strictly improves it to `"é"`. -/
theorem mojibakeRepair_not_idempotent :
    mojibakeRepair (mojibakeRepair [0xC3, 0x192, 0xC2, 0xA9]) ≠
      mojibakeRepair [0xC3, 0x192, 0xC2, 0xA9] ∧
    mojibakeRepair [0xC3, 0x192, 0xC2, 0xA9] = [0xC3, 0xA9] ∧
    mojibakeRepair (mojibakeRepair [0xC3, 0x192, 0xC2, 0xA9]) = [0xE9] := by
  refine ⟨?_, by decide, by decide⟩
  decide

/-! ## Cache lemmas -/

theorem storeLookup_erase_self {α : Type} (s : Store α) (k : String) :
    storeLookup (storeErase s k) k = none := by
  induction s with
  | nil => rfl
  | cons e rest ih =>
    by_cases h : e.1 = k
    · simpa [storeErase, List.filter_cons, h] using ih
    · simpa [storeErase, List.filter_cons, h, storeLookup] using ih

theorem storeLookup_erase_ne {α : Type} (s : Store α) (k k' : String) (h : k ≠ k') :
    storeLookup (storeErase s k') k = storeLookup s k := by
  induction s with
  | nil => rfl
  | cons e rest ih =>
    have h' : k' ≠ k := Ne.symm h
    by_cases he : e.1 = k'
    · simpa [storeErase, List.filter_cons, he, storeLookup, h'] using ih
    · by_cases hk : e.1 = k
      · simp [storeErase, List.filter_cons, he, storeLookup, hk, h]
      · simpa [storeErase, List.filter_cons, he, storeLookup, hk] using ih

theorem storeLookup_append {α : Type} (s t : Store α) (k : String) :
    storeLookup (s ++ t) k =
      match storeLookup s k with
      | some v => some v
      | none => storeLookup t k := by
  induction s with
  | nil => rfl
  | cons e rest ih =>
    by_cases he : e.1 = k
    · simp [storeLookup, he]
    · simpa [storeLookup, he] using ih

theorem storeLookup_insert {α : Type} (s : Store α) (k : String) (v : Nat × α) :
    storeLookup (storeInsert s k v) k = some v := by
  rw [storeInsert, storeLookup_append, storeLookup_erase_self]
  simp [storeLookup]

/-- The eviction loop never touches the entry of a key that is not
among the popped prefix. -/
theorem evictLoop_lookup {α : Type} (maxItems : Nat) (order : List String)
    (store : Store α) (k : String)
    (h : k ∉ order.take (order.length - maxItems)) :
    storeLookup (evictLoop maxItems order store).2 k = storeLookup store k := by
  induction order generalizing store with
  | nil => rfl
  | cons o rest ih =>
    by_cases hlen : maxItems < (o :: rest).length
    · have hlen' : maxItems < rest.length + 1 := by simpa using hlen
      have hk : (o :: rest).length - maxItems = (rest.length - maxItems) + 1 := by
        simp only [List.length_cons]; omega
      rw [hk] at h
      simp only [List.take_succ_cons, List.mem_cons, not_or] at h
      rw [evictLoop, if_pos hlen]
      rw [ih (storeErase store o) h.2]
      exact storeLookup_erase_ne store k o h.1
    · rw [evictLoop, if_neg hlen]

/-- C3 (amended part): within the configured TTL a `set` followed by a
`get` returns the value unchanged, and a `get` on an entry strictly
older than the TTL reports it absent and removes it from the store. -/
theorem cache_set_get_ttl {α : Type} (c : Cache α) (k : String) (v : α) (now now' : Nat)
    (hmax : 0 < c.maxItems) (hord : k ∈ c.order → (storeLookup c.store k).isSome) :
    (¬ now + c.ttl < now' → ((c.set k v now).get k now').1 = some v) ∧
    (∀ ts w, storeLookup c.store k = some (ts, w) → ts + c.ttl < now →
      (c.get k now).1 = none ∧ storeLookup ((c.get k now).2).store k = none) := by
  constructor
  · intro hfresh
    by_cases hin : (storeLookup c.store k).isSome
    · rw [Cache.set, if_pos hin]
      rw [Cache.get]
      simp only [storeLookup_insert]
      rw [if_neg hfresh]
    · have hnotord : k ∉ c.order := fun hmem => hin (hord hmem)
      rw [Cache.set, if_neg hin, Cache.get]
      have htake : k ∉ (c.order ++ [k]).take ((c.order ++ [k]).length - c.maxItems) := by
        have hle : (c.order ++ [k]).length - c.maxItems ≤ c.order.length := by
          simp; omega
        rw [List.take_append_of_le_length hle]
        exact fun hmem => hnotord (List.take_subset _ _ hmem)
      have := evictLoop_lookup c.maxItems (c.order ++ [k])
        (storeInsert c.store k (now, v)) k htake
      simp only [this, storeLookup_insert]
      rw [if_neg hfresh]
  · intro ts w hlook hexp
    refine ⟨?_, ?_⟩
    · simp [Cache.get, hlook, hexp]
    · simp only [Cache.get, hlook, if_pos hexp, Cache.delete]
      exact storeLookup_erase_self c.store k

/-- Witness for `cache_set_get_ttl` at concrete inputs. -/
theorem cache_set_get_ttl_witness :
    ((((mkCache Nat 32 3600).set "k" 42 0).get "k" 1000).1 = some 42) ∧
    ((((mkCache Nat 32 3600).set "k" 42 0).get "k" 5000).1 = none) :=
  ⟨(cache_set_get_ttl (mkCache Nat 32 3600) "k" 42 0 1000 (by decide)
      (by intro h; simp [mkCache] at h)).1 (by decide),
   ((cache_set_get_ttl ((mkCache Nat 32 3600).set "k" 42 0) "k" 0 5000 0 (by decide)
      (by intro _; decide)).2 0 42 (by decide) (by decide)).1⟩

/-- C4: the cache evicts in least-recently-used order, `get` counting
as an access: fill a capacity-3 cache with three distinct keys, touch
the oldest via `get`, insert a fourth — the touched key survives, the
true least-recently-used key (`k2`) is evicted, and the new key is
present. -/
theorem cache_lru_get_refreshes {α : Type} (v1 v2 v3 v4 : α) (k1 k2 k3 k4 : String)
    (h12 : k1 ≠ k2) (h13 : k1 ≠ k3) (h14 : k1 ≠ k4)
    (h23 : k2 ≠ k3) (h24 : k2 ≠ k4) (h34 : k3 ≠ k4) :
    (((((((mkCache α 3 3600).set k1 v1 0).set k2 v2 1).set k3 v3 2).get k1 3).2.set
        k4 v4 4).get k1 5).1 = some v1 ∧
    (((((((mkCache α 3 3600).set k1 v1 0).set k2 v2 1).set k3 v3 2).get k1 3).2.set
        k4 v4 4).get k2 5).1 = none ∧
    (((((((mkCache α 3 3600).set k1 v1 0).set k2 v2 1).set k3 v3 2).get k1 3).2.set
        k4 v4 4).get k4 5).1 = some v4 := by
  simp [mkCache, Cache.set, Cache.get, Cache.delete, storeLookup, storeInsert, storeErase,
    evictLoop, List.erase_cons, List.filter_cons,
    h12, h13, h14, h23, h24, h34,
    Ne.symm h12, Ne.symm h13, Ne.symm h14, Ne.symm h23, Ne.symm h24, Ne.symm h34]

/-- Witness for `cache_lru_get_refreshes` at concrete keys and values. -/
theorem cache_lru_get_refreshes_witness :
    (((((((mkCache Nat 3 3600).set "a" 10 0).set "b" 20 1).set "c" 30 2).get "a" 3).2.set
        "d" 40 4).get "a" 5).1 = some 10 ∧
    (((((((mkCache Nat 3 3600).set "a" 10 0).set "b" 20 1).set "c" 30 2).get "a" 3).2.set
        "d" 40 4).get "b" 5).1 = none ∧
    (((((((mkCache Nat 3 3600).set "a" 10 0).set "b" 20 1).set "c" 30 2).get "a" 3).2.set
        "d" 40 4).get "d" 5).1 = some 40 :=
  cache_lru_get_refreshes 10 20 30 40 "a" "b" "c" "d"
    (by decide) (by decide) (by decide) (by decide) (by decide) (by decide)

/-- C3 counterexample: the TTL is not the 900 seconds the claim fixes —
the reference default is 3600 seconds, and an entry aged 1000 seconds
(older than 900) is still returned. -/
theorem cache_ttl_not_900 :
    CACHE_TTL_SECONDS ≠ 900 ∧
    ((((mkCache Nat CACHE_MAX_ITEMS CACHE_TTL_SECONDS).set "k" 42 0).get "k" 1000).1
      = some 42) := by
  decide


/-! ## Theorems on the scan's PDF checking and scoring -/

theorem processItem_checked_iff (P : SearchParams) (o : Oracles) (it : Item)
    (hpdf : P.has_pdf = true) : (processItem P o it).2 = prePdfPass P it := by
  rw [processItem, prePdfPass]
  simp only [hpdf]
  repeat' split
  all_goals simp_all

theorem processItem_requires_pdf (P : SearchParams) (o : Oracles) (it : Item) (k : String)
    (hpdf : P.has_pdf = true) (hk : pyOr it.data.key it.key = some k)
    (hempty : o.pdfKeysOf k = []) :
    (processItem P o it).1 = none := by
  rw [processItem]
  split
  · rfl
  · split
    · rfl
    · split
      · rfl
      · split
        · rfl
        · split
          · rfl
          · rw [hk]
            simp [hpdf, hempty]

theorem scanLoop_checks_count (P : SearchParams) (o : Oracles) (hpdf : P.has_pdf = true) :
    ∀ batches scanned,
      (scanLoop P o batches scanned).2.2 =
        ((scannedItems P batches scanned).filter (prePdfPass P)).length := by
  intro batches
  induction batches with
  | nil => intro scanned; rfl
  | cons raw rest ih =>
    intro scanned
    rw [scanLoop, scannedItems]
    by_cases hscan : scanned < clampMaxScan P.max_scan
    · rw [if_pos hscan, if_pos hscan]
      by_cases hempty : (raw.filter isTopLevelItem).isEmpty
      · rw [if_pos hempty, if_pos hempty]; rfl
      · rw [if_neg hempty, if_neg hempty]
        simp only [List.filter_append, List.length_append]
        rw [← ih (scanned + (raw.filter isTopLevelItem).length)]
        congr 1
        rw [List.countP_map]
        rw [List.countP_congr (fun it _ => by
          simp only [Function.comp_apply]
          rw [processItem_checked_iff P o it hpdf])]
        exact (List.countP_eq_length_filter _ _)
    · rw [if_neg hscan, if_neg hscan]; rfl

/-- C2 (amended): with `has_pdf` set, the scan checks attachments for
every filter-passing record with a key — the check count is exactly
the number of scanned filter-passing records, with no
`pdf_check_top_n` cap anywhere (nor is any `pdf_checked` count in the
response) — and a filter-passing record whose check finds no PDF
attachment is excluded. -/
theorem faceted_pdf_checks_uncapped (P : SearchParams) (o : Oracles)
    (hpdf : P.has_pdf = true) :
    (∀ it, (processItem P o it).2 = prePdfPass P it) ∧
    (∀ it k, pyOr it.data.key it.key = some k → o.pdfKeysOf k = [] →
      (processItem P o it).1 = none) ∧
    (∀ batches, (facetedSearch P o batches).pdfChecks =
      ((scannedItems P batches 0).filter (prePdfPass P)).length) := by
  refine ⟨fun it => processItem_checked_iff P o it hpdf,
    fun it k hk he => processItem_requires_pdf P o it k hpdf hk he,
    fun batches => ?_⟩
  rw [facetedSearch]
  exact scanLoop_checks_count P o hpdf batches 0

/-- C2 counterexample: a filters-only scan with `has_pdf` over six
matching records performs six attachment checks — more than the
claimed `pdf_check_top_n = 5` cap; no cap exists in the code. -/
theorem faceted_pdf_checks_exceed_cap :
    (facetedSearch {} pdfOracles [sixBooks]).pdfChecks = 6 ∧
    5 < (facetedSearch {} pdfOracles [sixBooks]).pdfChecks := by
  decide

/-- Witness for `faceted_pdf_checks_uncapped` at concrete inputs. -/
theorem faceted_pdf_checks_uncapped_witness :
    (processItem {} pdfOracles (mkBook "K1")).2 = prePdfPass {} (mkBook "K1") ∧
    (processItem {} noPdfOracles (mkBook "K1")).1 = none ∧
    (facetedSearch {} pdfOracles [sixBooks]).pdfChecks =
      ((scannedItems {} [sixBooks] 0).filter (prePdfPass {})).length :=
  ⟨(faceted_pdf_checks_uncapped {} pdfOracles rfl).1 (mkBook "K1"),
   (faceted_pdf_checks_uncapped {} noPdfOracles rfl).2.1 (mkBook "K1") "K1" rfl rfl,
   (faceted_pdf_checks_uncapped {} pdfOracles rfl).2.2 [sixBooks]⟩

theorem processItem_score_pos (P : SearchParams) (o : Oracles) (it : Item) (c : Cand)
    (h : (processItem P o it).1 = some c) : 0 < c.score := by
  rw [processItem] at h
  repeat' split at h
  all_goals simp at h
  all_goals repeat' split at h
  all_goals simp at h
  all_goals (subst h; simp)
  all_goals omega

theorem scanLoop_mem_processItem (P : SearchParams) (o : Oracles) :
    ∀ batches scanned c, c ∈ (scanLoop P o batches scanned).1 →
      ∃ it, (processItem P o it).1 = some c := by
  intro batches
  induction batches with
  | nil => intro scanned c hc; simp [scanLoop] at hc
  | cons raw rest ih =>
    intro scanned c hc
    rw [scanLoop] at hc
    by_cases hscan : scanned < clampMaxScan P.max_scan
    · rw [if_pos hscan] at hc
      by_cases hempty : (raw.filter isTopLevelItem).isEmpty
      · rw [if_pos hempty] at hc
        simp at hc
      · rw [if_neg hempty] at hc
        simp only [List.mem_append] at hc
        rcases hc with h1 | h2
        · rcases List.mem_filterMap.mp h1 with ⟨x, hx, hfst⟩
          rcases List.mem_map.mp hx with ⟨it, _, rfl⟩
          exact ⟨it, hfst⟩
        · exact ih _ c h2
    · rw [if_neg hscan] at hc
      simp at hc

/-- C6: every record a search returns has a strictly positive score —
in free-text mode a record whose score is 0 is dropped, and in
filters-only mode (no query terms at all) every filter-passing record
is admitted with the nominal score 1 and reason `filters_only`. -/
theorem faceted_results_score_pos (P : SearchParams) (o : Oracles)
    (batches : List (List Item)) :
    (∀ r ∈ (facetedSearch P o batches).results, 0 < r.score) ∧
    (freeOf P = "" → ∀ it c, (processItem P o it).1 = some c →
      c.score = 1 ∧ c.reason = "filters_only") := by
  constructor
  · intro r hr
    rw [facetedSearch] at hr
    simp only [List.mem_map] at hr
    obtain ⟨c, hc, rfl⟩ := hr
    have hc1 : c ∈ sortCandidates (scanLoop P o batches 0).1 :=
      List.take_subset _ _ (List.take_subset _ _ hc)
    have hc2 : c ∈ (scanLoop P o batches 0).1 :=
      ((sortCandidates_perm _).mem_iff).mp hc1
    obtain ⟨it, hit⟩ := scanLoop_mem_processItem P o batches 0 c hc2
    have hpos := processItem_score_pos P o it c hit
    simpa [compactItem] using hpos
  · intro hfree it c h
    rw [processItem] at h
    repeat' split at h
    all_goals simp at h
    all_goals repeat' split at h
    all_goals try simp at h
    all_goals first
      | (exact absurd hfree (by assumption))
      | (subst h; exact ⟨rfl, rfl⟩)

/-- Witness for `faceted_results_score_pos` at a concrete filters-only
run. -/
theorem faceted_results_score_pos_witness :
    0 < (compactItem itemBeta false [] "" "filters_only" 1).score ∧
    ((⟨1, "filters_only", itemAlpha, "", []⟩ : Cand).score = 1 ∧
      (⟨1, "filters_only", itemAlpha, "", []⟩ : Cand).reason = "filters_only") :=
  ⟨(faceted_results_score_pos filtersOnlyParams noPdfOracles [[itemAlpha, itemBeta]]).1
      (compactItem itemBeta false [] "" "filters_only" 1) (by decide),
   (faceted_results_score_pos filtersOnlyParams noPdfOracles [[itemAlpha, itemBeta]]).2
      (by decide) itemAlpha ⟨1, "filters_only", itemAlpha, "", []⟩ (by decide)⟩

/-! ## Theorems on the free-text scorer -/

/-- C5 counterexample: when only the preferred-year rule fires, the
code awards +4, not the +2 the claim states (the preferred-creator
bonus is likewise +5, and token hits are capped at 10 over a haystack
that also includes year and notes). -/
theorem scoreMatchFree_bonus_not_two :
    (scoreMatchFree "zzzz" itemY "" (some "1999") none).1 = 4 ∧
    claimFreeScore "zzzz" itemY (some "1999") none = 2 ∧
    (scoreMatchFree "zzzz" itemY "" (some "1999") none).1 ≠
      claimFreeScore "zzzz" itemY (some "1999") none := by
  decide

/-- C5 (amended): for a non-empty normalized query the free-text score
decomposes as the whole-query field hits, plus one point per matching
token capped at 10, plus a +4 preferred-year bonus, plus a +5
preferred-creator bonus. -/
theorem scoreMatchFree_contributions (q : String) (it : Item) (nt : String)
    (py pc : Option String) (hq : strLower (strTrim q) ≠ "") :
    (scoreMatchFree q it nt py pc).1 =
      (fieldHits (strLower (strTrim q)) it nt).1 +
      (if tokenHitCount (strLower (strTrim q)) it nt ≠ 0
        then min 10 (tokenHitCount (strLower (strTrim q)) it nt) else 0) +
      (if preferYearHit py it then 4 else 0) +
      (if preferCreatorHit pc it then 5 else 0) := by
  rw [scoreMatchFree]
  rw [if_neg hq]
  repeat' split
  all_goals simp_all

/-- Witness for `scoreMatchFree_contributions` at a concrete query. -/
theorem scoreMatchFree_contributions_witness :
    (scoreMatchFree "zzzz" itemY "" (some "1999") none).1 =
      (fieldHits (strLower (strTrim "zzzz")) itemY "").1 +
      (if tokenHitCount (strLower (strTrim "zzzz")) itemY "" ≠ 0
        then min 10 (tokenHitCount (strLower (strTrim "zzzz")) itemY "") else 0) +
      (if preferYearHit (some "1999") itemY then 4 else 0) +
      (if preferCreatorHit none itemY then 5 else 0) :=
  scoreMatchFree_contributions "zzzz" itemY "" (some "1999") none (by decide)

/-! ## Theorems on the phrase-search hit invariants -/

theorem mem_assignPages :
    ∀ (rs : List Nat) (pageNo remaining x : Nat), x ∈ assignPages rs pageNo remaining →
      pageNo ≤ x ∧ x < pageNo + rs.length := by
  intro rs
  induction rs with
  | nil => intro pageNo remaining x hx; simp [assignPages] at hx
  | cons r rest ih =>
    intro pageNo remaining x hx
    rw [assignPages] at hx
    by_cases hr : remaining = 0
    · rw [if_pos hr] at hx; simp at hx
    · rw [if_neg hr] at hx
      rcases List.mem_append.mp hx with h1 | h2
      · have hx1 := List.eq_of_mem_replicate h1
        subst hx1
        simp only [List.length_cons]
        omega
      · have hx2 := ih (pageNo + 1) (remaining - min r remaining) x h2
        simp only [List.length_cons]
        omega

theorem assignPages_length_le :
    ∀ (rs : List Nat) (pageNo remaining : Nat),
      (assignPages rs pageNo remaining).length ≤ remaining := by
  intro rs
  induction rs with
  | nil => intro _ _; simp [assignPages]
  | cons r rest ih =>
    intro pageNo remaining
    rw [assignPages]
    by_cases hr : remaining = 0
    · simp [hr]
    · rw [if_neg hr]
      have := ih (pageNo + 1) (remaining - min r remaining)
      simp only [List.length_append, List.length_replicate]
      omega

theorem pairwise_le_replicate (n a : Nat) :
    (List.replicate n a).Pairwise (fun x y : Nat => x ≤ y) := by
  induction n with
  | zero => simp
  | succ n ih =>
    rw [List.replicate_succ]
    exact List.Pairwise.cons
      (fun b hb => le_of_eq (List.eq_of_mem_replicate hb).symm) ih

theorem assignPages_sorted :
    ∀ (rs : List Nat) (pageNo remaining : Nat),
      (assignPages rs pageNo remaining).Pairwise (fun x y : Nat => x ≤ y) := by
  intro rs
  induction rs with
  | nil => intro _ _; simp [assignPages]
  | cons r rest ih =>
    intro pageNo remaining
    rw [assignPages]
    by_cases hr : remaining = 0
    · simp [hr]
    · rw [if_neg hr]
      apply List.pairwise_append.mpr
      refine ⟨pairwise_le_replicate _ _, ih _ _, ?_⟩
      intro a ha b hb
      have ha1 := List.eq_of_mem_replicate ha
      have hb1 := (mem_assignPages rest (pageNo + 1) _ b hb).1
      omega

theorem attachPages_map_page :
    ∀ (hs : List PdfHit) (ps : List Nat), (∀ g ∈ hs, g.page = none) →
      (attachPages hs ps).map PdfHit.page =
        (ps.take hs.length).map some ++ List.replicate (hs.length - ps.length) none := by
  intro hs
  induction hs with
  | nil => intro ps h; simp [attachPages]
  | cons x t ih =>
    intro ps h
    cases ps with
    | nil =>
      rw [attachPages]
      simp only [List.map_cons]
      rw [ih [] (fun g hg => h g (List.mem_cons_of_mem x hg))]
      simp [h x (List.mem_cons_self x t), List.replicate_succ]
    | cons p pr =>
      rw [attachPages]
      simp only [List.map_cons, List.take_succ_cons, List.length_cons]
      rw [ih pr (fun g hg => h g (List.mem_cons_of_mem x hg))]
      simp [Nat.succ_sub_succ]

theorem filterMap_id_replicate_none {α : Type} (n : Nat) :
    (List.replicate n (none : Option α)).filterMap id = [] := by
  induction n with
  | zero => rfl
  | succ n ih => rw [List.replicate_succ, List.filterMap_cons]; exact ih

/-- The three hit-list invariants, for any initial all-unresolved hit
list and any per-page rectangle counts: resolved pages form a prefix,
lie in `[1, rc.length]`, and are non-decreasing. -/
theorem attach_assign_invariant (hits0 : List PdfHit) (rc : List Nat) (n : Nat)
    (h0 : ∀ g ∈ hits0, g.page = none) (hn : rc.length = n) :
    (∃ k, (∀ g ∈ (attachPages hits0 (assignPages rc 1 hits0.length)).take k,
        g.page.isSome = true) ∧
      (∀ g ∈ (attachPages hits0 (assignPages rc 1 hits0.length)).drop k, g.page = none)) ∧
    (∀ p ∈ (attachPages hits0 (assignPages rc 1 hits0.length)).filterMap PdfHit.page,
      1 ≤ p ∧ p ≤ n) ∧
    ((attachPages hits0 (assignPages rc 1 hits0.length)).filterMap PdfHit.page).Pairwise
      (fun x y : Nat => x ≤ y) := by
  subst hn
  set asg := assignPages rc 1 hits0.length with hasg
  have hlen : asg.length ≤ hits0.length := assignPages_length_le rc 1 hits0.length
  have htake : asg.take hits0.length = asg := List.take_of_length_le hlen
  have hmap : (attachPages hits0 asg).map PdfHit.page =
      asg.map some ++ List.replicate (hits0.length - asg.length) none := by
    rw [attachPages_map_page hits0 asg h0, htake]
  have hfm : (attachPages hits0 asg).filterMap PdfHit.page = asg := by
    have h1 : (attachPages hits0 asg).filterMap PdfHit.page =
        ((attachPages hits0 asg).map PdfHit.page).filterMap id := by
      rw [List.filterMap_map]
      rfl
    rw [h1, hmap, List.filterMap_append, filterMap_id_replicate_none,
      List.filterMap_map]
    simp
  refine ⟨⟨asg.length, ?_, ?_⟩, ?_, ?_⟩
  · intro g hg
    have hmem : g.page ∈ ((attachPages hits0 asg).take asg.length).map PdfHit.page :=
      List.mem_map_of_mem PdfHit.page hg
    rw [List.map_take, hmap] at hmem
    rw [List.take_append_of_le_length (by simp)] at hmem
    rw [List.take_of_length_le (by simp)] at hmem
    rcases List.mem_map.mp hmem with ⟨a, _, ha⟩
    rw [← ha]
    rfl
  · intro g hg
    have hmem : g.page ∈ ((attachPages hits0 asg).drop asg.length).map PdfHit.page :=
      List.mem_map_of_mem PdfHit.page hg
    rw [List.map_drop, hmap] at hmem
    rw [List.drop_append_of_le_length (by simp)] at hmem
    rw [List.drop_of_length_le (by simp)] at hmem
    simp only [List.nil_append] at hmem
    exact List.eq_of_mem_replicate hmem
  · intro p hp
    rw [hfm] at hp
    have := mem_assignPages rc 1 hits0.length p hp
    omega
  · rw [hfm]
    exact assignPages_sorted rc 1 hits0.length

/-- C10: in every successful in-PDF phrase-search result, the hits
with a resolved page number form a prefix of the hit list, every
resolved page number lies between 1 and `pages_scanned`, and the
resolved page numbers are non-decreasing across the hit list. -/
theorem pdfFindPhrase_hits_pages (fetch : Except HErr (List String)) (sfc : Nat → Nat)
    (cache : Cache String) (now : Nat) (key phrase : String) (mp mh cc : Nat) (uc : Bool)
    (r : PhraseResult) (cache' : Cache String)
    (h : pdfFindPhrase fetch sfc cache now key phrase mp mh cc uc = (.ok r, cache')) :
    (∃ k, (∀ g ∈ r.hits.take k, g.page.isSome = true) ∧
      (∀ g ∈ r.hits.drop k, g.page = none)) ∧
    (∀ p ∈ r.hits.filterMap PdfHit.page, 1 ≤ p ∧ p ≤ r.pages_scanned.getD 0) ∧
    (r.hits.filterMap PdfHit.page).Pairwise (fun x y : Nat => x ≤ y) := by
  rw [pdfFindPhrase.eq_def] at h
  by_cases hc : strTrim phrase = ""
  · rw [if_pos hc] at h
    injection h with h1 h2
    injection h1 with h1
    subst h1
    exact ⟨⟨0, by simp, by simp⟩, by simp, by simp⟩
  · rw [if_neg hc] at h
    cases fetch with
    | error e =>
      injection h with h1 h2
      exact Except.noConfusion h1
    | ok pages =>
      repeat' split at h
      all_goals
        first
          | (injection h with h1 h2
             injection h1 with h1
             subst h1
             exact attach_assign_invariant _ _ _
               (fun g hg => by rcases List.mem_map.mp hg with ⟨m, -, rfl⟩; rfl)
               (by simp))
          | simp_all

/-- Witness for `pdfFindPhrase_hits_pages` on a one-page document. -/
theorem pdfFindPhrase_hits_pages_witness :
    (∃ k, (∀ g ∈ phraseResultW.hits.take k, g.page.isSome = true) ∧
      (∀ g ∈ phraseResultW.hits.drop k, g.page = none)) ∧
    (∀ p ∈ phraseResultW.hits.filterMap PdfHit.page,
      1 ≤ p ∧ p ≤ phraseResultW.pages_scanned.getD 0) ∧
    (phraseResultW.hits.filterMap PdfHit.page).Pairwise (fun x y : Nat => x ≤ y) :=
  pdfFindPhrase_hits_pages (.ok ["ab"]) (fun _ => 1) (mkCache String 32 3600) 0 "K" "a"
    120 20 160 false phraseResultW (mkCache String 32 3600) rfl

end ZoteroProxy
